import Mathlib

/-!
Verification development for the openhub repository (a self-hosted git
hosting service written in Go).  The definitions below are a shallow
embedding of the Go source:

  * `internal/server/server.go`   — management API handlers and `isValidName`
  * `internal/git/http.go`        — HTTP git-transport front end and the
                                    SSH (shell-transport) front end
  * `internal/replication/…`      — the auth store (`CreateUserWithToken`,
                                    `ValidateAPIToken`)
  * `cmd/openhub` admin tool      — `adminAddReplica`
  * `internal/storage`            — `Metadata`, `Replica`, `ReplicaSource`
                                    and the repo store, modelled as a keyed map

External effects are abstracted in the standard way: the repository store
and the user store become association lists; the git engine, base64
decoding and outbound HTTP become boolean parameters describing whether
the external step succeeds; filesystem/engine interactions performed by a
handler are recorded in an explicit event trace so that theorems can speak
about which operations a request reaches.  Timestamps (`CreatedAt`,
`LastSynced`) are omitted: no claim mentions them and the handlers never
branch on them.
-/

/-! ### Go string primitives

The Go standard-library string functions used by the sources, modelled on
`List Char` (Go iterates runes with `range`; `len` counts UTF-8 bytes,
modelled by `goLen` below).
-/

/-- UTF-8 encoded size of a unicode scalar value, as Go's `len` counts it. -/
def utf8Len (c : Char) : Nat :=
  if c.toNat ≤ 0x7F then 1 else if c.toNat ≤ 0x7FF then 2
  else if c.toNat ≤ 0xFFFF then 3 else 4

/-- Go `len(s)` on a string: the number of UTF-8 bytes. -/
def goLen (s : String) : Nat := (s.data.map utf8Len).sum

/-- Go `strings.HasPrefix`. -/
def goHasPre (s pre : String) : Bool := pre.data.isPrefixOf s.data

/-- Go `strings.HasSuffix`. -/
def goHasSuf (s suf : String) : Bool := suf.data.isSuffixOf s.data

/-- Go `strings.TrimPrefix`. -/
def goTrimPre (s pre : String) : String :=
  if goHasPre s pre then ⟨s.data.drop pre.data.length⟩ else s

/-- Go `strings.TrimSuffix`. -/
def goTrimSuf (s suf : String) : String :=
  if goHasSuf s suf then ⟨s.data.take (s.data.length - suf.data.length)⟩ else s

/-- Splitter on a character predicate: underlying worker for Go
`strings.Split` (single-character separator) and `strings.Fields`. -/
def splitPAux (p : Char → Bool) : List Char → List Char → List (List Char)
  | [], acc => [acc.reverse]
  | c :: cs, acc =>
    if p c then acc.reverse :: splitPAux p cs [] else splitPAux p cs (c :: acc)

/-- Go `strings.Split(s, sep)` for a one-character separator. -/
def goSplit (s : String) (sep : Char) : List String :=
  (splitPAux (fun c => c = sep) s.data []).map (fun l => ⟨l⟩)

/-- Go `unicode.IsSpace` restricted to the ASCII space characters
(sufficient for the command strings the SSH front end handles). -/
def goIsSpace (c : Char) : Bool :=
  c = ' ' || c = '\t' || c = '\n' || c = '\x0b' || c = '\x0c' || c = '\r'

/-- Go `strings.Fields`: split around runs of whitespace. -/
def goFields (s : String) : List String :=
  ((splitPAux goIsSpace s.data []).filter (· ≠ [])).map (fun l => ⟨l⟩)

/-- Go `strings.Trim(s, cutset)`: strip leading and trailing characters
belonging to `cutset`. -/
def goTrim (s cutset : String) : String :=
  let cs := cutset.data
  ⟨((s.data.dropWhile (cs.contains ·)).reverse.dropWhile (cs.contains ·)).reverse⟩

/-- Worker for Go `strings.SplitN(s, sep, 2)`. -/
def splitN2Aux (sep : Char) : List Char → List Char → List String
  | [], acc => [⟨acc.reverse⟩]
  | c :: cs, acc =>
    if c = sep then [⟨acc.reverse⟩, ⟨cs⟩] else splitN2Aux sep cs (c :: acc)

/-- Go `strings.SplitN(s, sep, 2)` for a one-character separator. -/
def goSplitN2 (s : String) (sep : Char) : List String := splitN2Aux sep s.data []

/-- Go `strings.Contains(s, sub)` specialised to a single character. -/
def goContainsChar (s : String) (c : Char) : Bool := s.data.contains c

/-- Join path segments with `/`: helper for `path.Clean`. -/
def joinSlash : List String → String
  | [] => ""
  | [x] => x
  | x :: xs => x ++ "/" ++ joinSlash xs

/-- One step of the lexical `path.Clean` stack machine: drop empty and `.`
segments, resolve `..` against the stack (discarding it at the root of a
rooted path, keeping it on a relative path). -/
def cleanStep (rooted : Bool) (stack : List String) (seg : String) : List String :=
  if seg = "" || seg = "." then stack
  else if seg = ".." then
    match stack with
    | [] => if rooted then [] else [".."]
    | top :: rest => if top = ".." then seg :: top :: rest else rest
  else seg :: stack

/-- Go `path.Clean`: lexical simplification of a slash-separated path. -/
def pathClean (p : String) : String :=
  if p = "" then "."
  else
    let rooted := goHasPre p "/"
    let stack := ((goSplit p '/').foldl (cleanStep rooted) []).reverse
    if rooted then
      (if stack = [] then "/" else "/" ++ joinSlash stack)
    else
      (if stack = [] then "." else joinSlash stack)

/-! ### Data model (`internal/storage`, `internal/auth`) -/

/-- `storage.ReplicaSource`: inbound provenance record; presence marks a
repository as a read-only replica. -/
structure ReplicaSource where
  InstanceID : String
  InvitationKey : String
deriving Repr, DecidableEq

/-- `storage.Replica`: outbound replica record (timestamp omitted). -/
structure Replica where
  InstanceID : String
  URL : String
  Token : String
  InvitationKey : String
  Enabled : Bool
deriving Repr, DecidableEq

/-- `storage.Metadata` (timestamp omitted). -/
structure Metadata where
  Description : String
  Private : Bool
  DefaultBranch : String
  Replicas : List Replica
  ReplicaOf : Option ReplicaSource
deriving Repr, DecidableEq

/-- The metadata `storage.CreateRepo` writes for a fresh repository. -/
def defaultMetadata : Metadata :=
  { Description := "", Private := false, DefaultBranch := "main",
    Replicas := [], ReplicaOf := none }

/-- The repository store: a keyed map `(owner, name) ↦ metadata` standing
for the on-disk layout `<root>/<owner>/<name>.git` + `openhub.json`. -/
abbrev Repos := List ((String × String) × Metadata)

/-- Lookup backing both `storage.RepoExists` and `storage.GetMetadata`
(the store returns defaults rather than failing when only the metadata
file is missing, so an existing repo always yields a metadata value). -/
def findRepo : Repos → String → String → Option Metadata
  | [], _, _ => none
  | p :: ps, o, r => if p.1 = (o, r) then some p.2 else findRepo ps o r

/-- `storage.RepoExists`. -/
def repoExists (repos : Repos) (o r : String) : Bool := (findRepo repos o r).isSome

/-- Replace the metadata of the repository keyed `(o, r)`. -/
def updateRepo : Repos → String → String → Metadata → Repos
  | [], _, _, _ => []
  | p :: ps, o, r, m =>
    if p.1 = (o, r) then ((o, r), m) :: ps else p :: updateRepo ps o r m

/-- `storage.SetMetadata`: fails (returns `none`) when the repository does
not exist, otherwise replaces the metadata document. -/
def SetMetadata (repos : Repos) (o r : String) (m : Metadata) : Option Repos :=
  if repoExists repos o r then some (updateRepo repos o r m) else none

/-- `storage.CreateRepo`: fails when the repository already exists,
otherwise initialises it with default metadata. -/
def CreateRepo (repos : Repos) (o r : String) : Option Repos :=
  if repoExists repos o r then none else some (repos ++ [((o, r), defaultMetadata)])

/-- `auth.APIToken` (timestamp omitted). -/
structure APIToken where
  Name : String
  Token : String
deriving Repr, DecidableEq

/-- `auth.SSHKey` (timestamp omitted). -/
structure SSHKey where
  Name : String
  Key : String
deriving Repr, DecidableEq

/-- `auth.User` (timestamp omitted). -/
structure User where
  Username : String
  SSHKeys : List SSHKey
  APITokens : List APIToken
deriving Repr, DecidableEq

/-- The user store: the contents of `<root>/users/`, one record per user. -/
abbrev Users := List User

/-- `auth.AuthStore.GetUser`. -/
def GetUser (users : Users) (username : String) : Option User :=
  users.find? (fun u => u.Username = username)

/-- The only failure of `CreateUserWithToken` the model distinguishes: the
Go implementation signals it with an error whose text contains
"already exists" (I/O failures of the underlying file write are outside
the model). -/
inductive CreateUserError where
  | alreadyExists
deriving Repr, DecidableEq

/-- `auth.AuthStore.CreateUserWithToken`: refuses when the user exists,
otherwise creates the user whose sole API token is the supplied one. -/
def CreateUserWithToken (users : Users) (username tokenName token : String) :
    Except CreateUserError Users :=
  if (GetUser users username).isSome then .error .alreadyExists
  else .ok (users ++ [{ Username := username, SSHKeys := [],
                        APITokens := [{ Name := tokenName, Token := token }] }])

/-- `auth.AuthStore.ValidateAPIToken`: linear scan over every user's token
list; yields the owning username. -/
def ValidateAPIToken (users : Users) (token : String) : Option String :=
  users.findSome? fun u =>
    if u.APITokens.any (fun t => t.Token = token) then some u.Username else none

/-! ### Name validation (`server.isValidName`) -/

/-- The character test inside `isValidName`'s loop, in the source's order:
`a-z`, `A-Z`, `0-9`, `-`, `_`, `.`. -/
def validNameChar (c : Char) : Bool :=
  ('a' ≤ c && c ≤ 'z') || ('A' ≤ c && c ≤ 'Z') || ('0' ≤ c && c ≤ '9')
    || c == '-' || c == '_' || c == '.'

/-- `server.isValidName`, translated clause by clause: empty or longer
than 100 bytes → false; any rune outside the class → false; otherwise no
leading and no trailing dot. -/
def isValidName (name : String) : Bool :=
  if name = "" || goLen name > 100 then false
  else if !(name.data.all validNameChar) then false
  else !(goHasPre name ".") && !(goHasSuf name ".")

/-! ### Event traces

Each request handler returns, besides its outcome, the list of filesystem
and engine interactions it performed, in order.  This is how the theorems
talk about "before any engine invocation" or "no filesystem operation". -/

/-- Observable side effects of a handler. -/
inductive Event where
  | repoExistsCheck (owner name : String)
  | getMetadata (owner name : String)
  | repoPath (owner name : String)
  | spawnEngine (cmd owner name : String)
  | enqueueJob (owner name : String)
  | applyBundle (owner name : String)
  | createRepo (owner name : String)
  | setMetadata (owner name : String)
deriving Repr, DecidableEq

/-! ### HTTP git-transport front end (`internal/git/http.go`, `HTTPServer`) -/

/-- Response classes of the git-transport HTTP handlers. -/
inductive GitHTTPOutcome where
  | methodNotAllowed   -- 405
  | invalidService     -- 400 "invalid service"
  | invalidRepoPath    -- 400 "invalid repo path"
  | repoNotFound       -- 404
  | forbiddenReplica   -- 403 "cannot push: repository is a read-only replica"
  | unauthorized       -- 401 + WWW-Authenticate challenge
  | internalError      -- 500
  | ok                 -- 200, engine output streamed
deriving Repr, DecidableEq

/-- `(*HTTPServer).parseRepoPath`: `path.Clean`, strip the leading slash,
the route suffix, and `.git`, then take the first two segments. -/
def HTTPServer.parseRepoPath (urlPath : String) : String × String :=
  let p := pathClean urlPath
  let p := goTrimPre p "/"
  let p := if goHasSuf p "/info/refs" then goTrimSuf p "/info/refs" else p
  let p := if goHasSuf p "/git-upload-pack" then goTrimSuf p "/git-upload-pack" else p
  let p := if goHasSuf p "/git-receive-pack" then goTrimSuf p "/git-receive-pack" else p
  let p := goTrimSuf p ".git"
  let parts := goSplit p '/'
  if parts.length ≥ 2 then (parts.headD "", parts.getD 1 "") else ("", "")

/-- `(*HTTPServer).getAuthenticatedUser`: Basic credentials whose password
is a valid API token owned by exactly the Basic username; every other
shape of credentials degrades to the anonymous user `""`.  The token
validator is the abstract `TokenValidator` interface, a function
`token ↦ Option username`. -/
def getAuthenticatedUser (validate : String → Option String)
    (basicAuth : Option (String × String)) : String :=
  match basicAuth with
  | none => ""
  | some (username, password) =>
    if username = "" || password = "" then ""
    else
      match validate password with
      | none => ""
      | some validatedUser => if validatedUser ≠ username then "" else username

/-- `(*HTTPServer).handleInfoRefs`.  `advertiseOk` abstracts whether the
engine's `--advertise-refs` invocation succeeds. -/
def HTTPServer.handleInfoRefs (repos : Repos) (validate : String → Option String)
    (method urlPath service : String) (basicAuth : Option (String × String))
    (advertiseOk : Bool) : GitHTTPOutcome × List Event :=
  if method ≠ "GET" then (.methodNotAllowed, [])
  else if service ≠ "git-upload-pack" && service ≠ "git-receive-pack" then
    (.invalidService, [])
  else
    let (owner, repo) := HTTPServer.parseRepoPath urlPath
    if owner = "" || repo = "" then (.invalidRepoPath, [])
    else
      match findRepo repos owner repo with
      | none => (.repoNotFound, [.repoExistsCheck owner repo])
      | some meta =>
        let tr := [Event.repoExistsCheck owner repo, Event.getMetadata owner repo]
        let username := getAuthenticatedUser validate basicAuth
        let needsWrite := service = "git-receive-pack"
        if needsWrite then
          if meta.ReplicaOf.isSome then (.forbiddenReplica, tr)
          else if username ≠ owner then (.unauthorized, tr)
          else
            let tr := tr ++ [Event.repoPath owner repo, Event.spawnEngine service owner repo]
            if advertiseOk then (.ok, tr) else (.internalError, tr)
        else
          if meta.Private && username ≠ owner then (.unauthorized, tr)
          else
            let tr := tr ++ [Event.repoPath owner repo, Event.spawnEngine service owner repo]
            if advertiseOk then (.ok, tr) else (.internalError, tr)

/-- `(*HTTPServer).handleGitCommand`: the POST transport endpoint for
`git-upload-pack` / `git-receive-pack`.  `startOk` abstracts whether the
engine process starts (stdout-pipe + start errors map to 500); once it has
started the handler streams and returns 200 regardless of the engine's
exit status, and — as in the source — never touches a replication queue
(`HTTPServer` holds no queue reference). -/
def HTTPServer.handleGitCommand (repos : Repos) (validate : String → Option String)
    (method urlPath service : String) (basicAuth : Option (String × String))
    (startOk : Bool) : GitHTTPOutcome × List Event :=
  if method ≠ "POST" then (.methodNotAllowed, [])
  else
    let (owner, repo) := HTTPServer.parseRepoPath urlPath
    if owner = "" || repo = "" then (.invalidRepoPath, [])
    else
      match findRepo repos owner repo with
      | none => (.repoNotFound, [.repoExistsCheck owner repo])
      | some meta =>
        let tr := [Event.repoExistsCheck owner repo, Event.getMetadata owner repo]
        let username := getAuthenticatedUser validate basicAuth
        let needsWrite := service = "git-receive-pack"
        if needsWrite then
          if meta.ReplicaOf.isSome then (.forbiddenReplica, tr)
          else if username ≠ owner then (.unauthorized, tr)
          else
            let tr := tr ++ [Event.repoPath owner repo, Event.spawnEngine service owner repo]
            if startOk then (.ok, tr) else (.internalError, tr)
        else
          if meta.Private && username ≠ owner then (.unauthorized, tr)
          else
            let tr := tr ++ [Event.repoPath owner repo, Event.spawnEngine service owner repo]
            if startOk then (.ok, tr) else (.internalError, tr)

/-- `(*HTTPServer).handleRequest`: route by URL suffix. -/
def HTTPServer.handleRequest (repos : Repos) (validate : String → Option String)
    (method urlPath service : String) (basicAuth : Option (String × String))
    (engineOk : Bool) : GitHTTPOutcome × List Event :=
  if goHasSuf urlPath "/info/refs" then
    HTTPServer.handleInfoRefs repos validate method urlPath service basicAuth engineOk
  else if goHasSuf urlPath "/git-upload-pack" then
    HTTPServer.handleGitCommand repos validate method urlPath "git-upload-pack" basicAuth engineOk
  else if goHasSuf urlPath "/git-receive-pack" then
    HTTPServer.handleGitCommand repos validate method urlPath "git-receive-pack" basicAuth engineOk
  else (.repoNotFound, [])

/-! ### Shell-transport front end (`internal/git/http.go`, `SSHServer`) -/

/-- The package-level `parseRepoPath` used by the SSH front end (no
`path.Clean` here). -/
def parseRepoPath (path : String) : String × String :=
  let path := goTrimPre path "/"
  let path := goTrimSuf path ".git"
  let parts := goSplit path '/'
  if parts.length ≥ 2 then (parts.headD "", parts.getD 1 "") else ("", "")

/-- Terminal states of `(*SSHServer).handleGitCommand`; everything except
`success` is written to stderr and followed by exit status 1. -/
inductive SSHOutcome where
  | invalidCommand
  | onlyGitCommands
  | invalidRepoPath
  | repoNotFound
  | forbiddenReplica      -- "permission denied: repository is a read-only replica"
  | deniedOwner           -- "permission denied: only owner can push"
  | deniedPrivate         -- "permission denied: private repository"
  | commandError
  | success
deriving Repr, DecidableEq

/-- The exit status the SSH session reports for each outcome. -/
def SSHOutcome.exitStatus : SSHOutcome → Nat
  | .success => 0
  | _ => 1

/-- `(*SSHServer).handleGitCommand`.  `username` is the identity bound by
public-key authentication; `engineOk` abstracts whether the spawned engine
process exits cleanly.  The replication queue is always wired in the
server composition, so the `replQueue != nil` guard of the source is
always taken. -/
def SSHServer.handleGitCommand (repos : Repos) (command username : String)
    (engineOk : Bool) : SSHOutcome × List Event :=
  let parts := goFields command
  if parts.length < 2 then (.invalidCommand, [])
  else
    let gitCmd := parts.headD ""
    let repoPathArg := goTrim (parts.getD 1 "") "'\""
    if !(goHasPre gitCmd "git-") then (.onlyGitCommands, [])
    else
      let (owner, repo) := parseRepoPath repoPathArg
      if owner = "" || repo = "" then (.invalidRepoPath, [])
      else
        match findRepo repos owner repo with
        | none => (.repoNotFound, [.repoExistsCheck owner repo])
        | some meta =>
          let tr := [Event.repoExistsCheck owner repo, Event.getMetadata owner repo]
          let needsWrite := gitCmd = "git-receive-pack"
          if needsWrite then
            if meta.ReplicaOf.isSome then (.forbiddenReplica, tr)
            else if username ≠ owner then (.deniedOwner, tr)
            else
              let tr := tr ++ [Event.repoPath owner repo, Event.spawnEngine gitCmd owner repo]
              if !engineOk then (.commandError, tr)
              else (.success, tr ++ [Event.enqueueJob owner repo])
          else
            if meta.Private && username ≠ owner then (.deniedPrivate, tr)
            else
              let tr := tr ++ [Event.repoPath owner repo, Event.spawnEngine gitCmd owner repo]
              if !engineOk then (.commandError, tr)
              else (.success, tr)

/-! ### Management API (`internal/server/server.go`) -/

/-- The username template `fmt.Sprintf("replication-%s-%s-%s", owner,
repo, instanceID)` used both by `handleRegisterReplication` (to create
the credential) and `handleReplicate` (to check the binding). -/
def expectedReplicationUser (owner repo instanceID : String) : String :=
  "replication-" ++ owner ++ "-" ++ repo ++ "-" ++ instanceID

/-- Body of `POST /api/repos/replicate` (`storage.Metadata` payload
included); a `none` body models a JSON decoding failure. -/
structure ReplicateRequest where
  Owner : String
  Repo : String
  InstanceID : String
  InvitationKey : String
  Bundle : String
  Meta : Metadata
deriving Repr, DecidableEq

/-- Response classes of `(*Server).handleReplicate`, in source order. -/
inductive ReplicateOutcome where
  | methodNotAllowed       -- 405
  | missingAuth            -- 401 "missing authorization"
  | invalidAuthHeader      -- 401 "invalid authorization header"
  | invalidToken           -- 401 "invalid token"
  | invalidBody            -- 400 "invalid request body"
  | missingFields          -- 400 "owner, repo, instance_id, and invitation_key required"
  | invalidName            -- 400 "invalid owner or repo name"
  | missingBundle          -- 400 "missing bundle data"
  | notReplicationUser     -- 403 "unauthorized: not a replication user"
  | tokenMismatch          -- 403 "unauthorized: token mismatch"
  | decodeBundleError      -- 400 "decode bundle"
  | conflictOrigin         -- 409 "cannot replicate: repo already exists as origin"
  | invalidInvitationKey   -- 403 "invalid invitation key"
  | createRepoFailed       -- 500
  | gitFetchFailed         -- 500
  | setMetadataFailed      -- 500
  | ok                     -- 200 {success: true}
deriving Repr, DecidableEq

/-- The tail of `(*Server).handleReplicate` from the `repoExists` check
onward: conflict/invitation-key checks against an existing repository,
repository creation otherwise, bundle application (`fetchOk` abstracts
the engine's `git fetch <bundle> refs/*:refs/*`), and metadata persist. -/
def replicateApply (repos : Repos) (req : ReplicateRequest) (fetchOk : Bool) :
    ReplicateOutcome × Repos × List Event :=
  match findRepo repos req.Owner req.Repo with
  | some existingMeta =>
    match existingMeta.ReplicaOf with
    | none => (.conflictOrigin, repos, [.repoExistsCheck req.Owner req.Repo])
    | some src =>
      if src.InvitationKey ≠ req.InvitationKey then
        (.invalidInvitationKey, repos, [.repoExistsCheck req.Owner req.Repo])
      else
        let tr := [Event.repoExistsCheck req.Owner req.Repo,
                   Event.applyBundle req.Owner req.Repo]
        if !fetchOk then (.gitFetchFailed, repos, tr)
        else
          let newMeta := { req.Meta with
            ReplicaOf := some { InstanceID := req.InstanceID,
                                InvitationKey := req.InvitationKey } }
          match SetMetadata repos req.Owner req.Repo newMeta with
          | none => (.setMetadataFailed, repos, tr)
          | some repos2 =>
            (.ok, repos2, tr ++ [Event.setMetadata req.Owner req.Repo])
  | none =>
    match CreateRepo repos req.Owner req.Repo with
    | none => (.createRepoFailed, repos, [.repoExistsCheck req.Owner req.Repo])
    | some repos1 =>
      let tr := [Event.repoExistsCheck req.Owner req.Repo,
                 Event.createRepo req.Owner req.Repo,
                 Event.applyBundle req.Owner req.Repo]
      if !fetchOk then (.gitFetchFailed, repos1, tr)
      else
        let newMeta := { req.Meta with
          ReplicaOf := some { InstanceID := req.InstanceID,
                              InvitationKey := req.InvitationKey } }
        match SetMetadata repos1 req.Owner req.Repo newMeta with
        | none => (.setMetadataFailed, repos1, tr)
        | some repos2 =>
          (.ok, repos2, tr ++ [Event.setMetadata req.Owner req.Repo])

/-- `(*Server).handleReplicate`, translated check by check.  `decodeOk`
abstracts base64 decoding of the bundle, `fetchOk` the engine's
`git fetch <bundle> refs/*:refs/*`.  Returns the outcome, the resulting
repository store, and the trace of store/engine interactions. -/
def handleReplicate (repos : Repos) (validate : String → Option String)
    (method authHeader : String) (body : Option ReplicateRequest)
    (decodeOk fetchOk : Bool) : ReplicateOutcome × Repos × List Event :=
  if method ≠ "POST" then (.methodNotAllowed, repos, [])
  else if authHeader = "" then (.missingAuth, repos, [])
  else
    let parts := goSplitN2 authHeader ' '
    if parts.length ≠ 2 || parts.headD "" ≠ "Bearer" then (.invalidAuthHeader, repos, [])
    else
      match validate (parts.getD 1 "") with
      | none => (.invalidToken, repos, [])
      | some username =>
        match body with
        | none => (.invalidBody, repos, [])
        | some req =>
          if req.Owner = "" || req.Repo = "" || req.InstanceID = "" || req.InvitationKey = "" then
            (.missingFields, repos, [])
          else if !isValidName req.Owner || !isValidName req.Repo then
            (.invalidName, repos, [])
          else if req.Bundle = "" then (.missingBundle, repos, [])
          else if !(goHasPre username "replication-") then (.notReplicationUser, repos, [])
          else if username ≠ expectedReplicationUser req.Owner req.Repo req.InstanceID then
            (.tokenMismatch, repos, [])
          else if !decodeOk then (.decodeBundleError, repos, [])
          else replicateApply repos req fetchOk

/-- Body of `POST /api/repos/register-replication`. -/
structure RegisterReplicationRequest where
  Owner : String
  Repo : String
  ReplicaURL : String
  Token : String
  OriginInstanceID : String
deriving Repr, DecidableEq

/-- Response classes of `(*Server).handleRegisterReplication`. -/
inductive RegisterOutcome where
  | methodNotAllowed   -- 405
  | invalidBody        -- 400
  | missingFields      -- 400
  | invalidName        -- 400
  | repoNotFound       -- 404 "repository not found"
  | forbiddenReplica   -- 403 "cannot add replica: this is a replica itself"
  | ok                 -- 200 {success: true}
deriving Repr, DecidableEq

/-- `(*Server).handleRegisterReplication`: requires the named repository
to exist locally and not be a replica, then creates the replication user;
a "user already exists" error from `CreateUserWithToken` is swallowed and
still reported as success, leaving the user store untouched. -/
def handleRegisterReplication (repos : Repos) (users : Users)
    (method : String) (body : Option RegisterReplicationRequest) :
    RegisterOutcome × Users :=
  if method ≠ "POST" then (.methodNotAllowed, users)
  else
    match body with
    | none => (.invalidBody, users)
    | some req =>
      if req.Owner = "" || req.Repo = "" || req.Token = "" ||
          req.OriginInstanceID = "" || req.ReplicaURL = "" then
        (.missingFields, users)
      else if !isValidName req.Owner || !isValidName req.Repo then
        (.invalidName, users)
      else
        match findRepo repos req.Owner req.Repo with
        | none => (.repoNotFound, users)
        | some meta =>
          if meta.ReplicaOf.isSome then (.forbiddenReplica, users)
          else
            let replicationUser :=
              expectedReplicationUser req.Owner req.Repo req.OriginInstanceID
            match CreateUserWithToken users replicationUser "replication" req.Token with
            | .error .alreadyExists => (.ok, users)
            | .ok users2 => (.ok, users2)

/-! ### Admin tool (`cmd/openhub`, `adminAddReplica`) -/

/-- Terminal states of the `admin add-replica` command. -/
inductive AddReplicaOutcome where
  | invalidPath          -- "invalid repo path, must be owner/name", exit 1
  | metadataError        -- store error, exit 1
  | replicaRefused       -- "error: cannot add replica to a replica repository", exit 1
  | registrationFailed   -- peer refused the handshake, exit 1
  | success
deriving Repr, DecidableEq

/-- `adminAddReplica`: split the `owner/name` argument, refuse when the
local repository is itself a replica, otherwise register with the peer
(`peerSuccess` abstracts the peer's `/api/repos/register-replication`
response) and append the new `Replica` record.  `token`, `invitationKey`
and `instID` stand for the generated random credentials and the local
instance identity. -/
def adminAddReplica (repos : Repos) (path url : String)
    (token invitationKey instID : String) (peerSuccess : Bool) :
    AddReplicaOutcome × Repos :=
  let parts := goSplit path '/'
  if parts.length ≠ 2 then (.invalidPath, repos)
  else
    let owner := parts.headD ""
    let name := parts.getD 1 ""
    match findRepo repos owner name with
    | none => (.metadataError, repos)
    | some meta =>
      if meta.ReplicaOf.isSome then (.replicaRefused, repos)
      else if !peerSuccess then (.registrationFailed, repos)
      else
        let replica : Replica := { InstanceID := instID, URL := url, Token := token,
                                   InvitationKey := invitationKey, Enabled := true }
        match SetMetadata repos owner name { meta with Replicas := meta.Replicas ++ [replica] } with
        | none => (.metadataError, repos)
        | some repos2 => (.success, repos2)

/-! ### Specification-side definitions

For the refinement claim about name validation, the spec's regex
`^[A-Za-z0-9._-]{1,100}$` plus the no-leading/trailing-dot rule is stated
as an independent definition, to be compared with the source-derived
`isValidName`. -/

/-- Modelled from the spec: the character class `[A-Za-z0-9._-]` of §3,
in the regex's order. -/
def specNameChar (c : Char) : Bool :=
  ('A' ≤ c && c ≤ 'Z') || ('a' ≤ c && c ≤ 'z') || ('0' ≤ c && c ≤ '9')
    || c == '.' || c == '_' || c == '-'

/-- Modelled from the spec: a string matches `^[A-Za-z0-9._-]{1,100}$`
iff it consists of 1 to 100 characters, all from the class. -/
def specRegexAccepts (name : String) : Bool :=
  1 ≤ name.data.length && name.data.length ≤ 100 && name.data.all specNameChar

/-- Modelled from the spec: matches the §3 regex and neither starts nor
ends with a dot. -/
def specValidName (name : String) : Bool :=
  specRegexAccepts name && !(goHasPre name ".") && !(goHasSuf name ".")

/-! ### Helper lemmas -/

theorem strdata_append (a b : String) : (a ++ b).data = a.data ++ b.data := rfl

theorem utf8Len_of_validNameChar (c : Char) (h : validNameChar c = true) :
    utf8Len c = 1 := by
  simp only [validNameChar, Bool.or_eq_true, Bool.and_eq_true, decide_eq_true_eq,
    beq_iff_eq] at h
  have hle : c.toNat ≤ 0x7F := by
    rcases h with ((((⟨h1, h2⟩ | ⟨h1, h2⟩) | ⟨h1, h2⟩) | rfl) | rfl) | rfl <;>
      first
        | decide
        | (simp only [Char.le_def] at h2
           exact le_trans h2 (by decide))
  simp [utf8Len, hle]

theorem specNameChar_eq_validNameChar (c : Char) : specNameChar c = validNameChar c := by
  rw [Bool.eq_iff_iff]
  simp only [specNameChar, validNameChar, Bool.or_eq_true, Bool.and_eq_true]
  tauto

theorem sum_utf8Len_of_all_valid (l : List Char) (h : l.all validNameChar = true) :
    (l.map utf8Len).sum = l.length := by
  induction l with
  | nil => simp
  | cons c cs ih =>
    simp only [List.all_cons, Bool.and_eq_true] at h
    simp [utf8Len_of_validNameChar c h.1, ih h.2, Nat.add_comm]

theorem findRepo_updateRepo (o r : String) (m : Metadata) :
    ∀ repos : Repos, (findRepo repos o r).isSome →
      findRepo (updateRepo repos o r m) o r = some m := by
  intro repos h
  induction repos with
  | nil => simp [findRepo] at h
  | cons p ps ih =>
    by_cases hp : p.1 = (o, r)
    · simp [updateRepo, findRepo, hp]
    · simp only [findRepo, updateRepo, hp, if_false, if_neg hp] at h ⊢
      exact ih h

theorem findRepo_SetMetadata (repos repos2 : Repos) (o r : String) (m : Metadata)
    (h : SetMetadata repos o r m = some repos2) : findRepo repos2 o r = some m := by
  unfold SetMetadata at h
  split at h
  · cases h
    exact findRepo_updateRepo o r m repos (by assumption)
  · cases h

theorem goHasPre_expectedReplicationUser (o r i : String) :
    goHasPre (expectedReplicationUser o r i) "replication-" = true := by
  have hdata : (expectedReplicationUser o r i).data =
      "replication-".data ++ (o.data ++ "-".data ++ r.data ++ "-".data ++ i.data) := by
    simp [expectedReplicationUser, strdata_append, List.append_assoc]
  simp only [goHasPre, hdata]
  rw [List.isPrefixOf_iff_prefix]
  exact List.prefix_append _ _

/-! ### Claim theorems -/

/-- C8: the name validator accepts a string exactly when it matches
`^[A-Za-z0-9._-]{1,100}$` and neither starts nor ends with `.`: every
string satisfying both conditions is accepted, and every string violating
either (empty, over 100 long, a character outside the class, or a leading
or trailing dot) is rejected.  Stated as extensional equality between the
source-derived `isValidName` and the spec-derived `specValidName`. -/
theorem C8_isValidName_matches_spec_regex (name : String) :
    isValidName name = specValidName name := by
  simp only [isValidName, specValidName, specRegexAccepts, goLen]
  rw [show specNameChar = validNameChar from funext specNameChar_eq_validNameChar]
  by_cases hall : name.data.all validNameChar = true
  · have hlen : (name.data.map utf8Len).sum = name.data.length :=
      sum_utf8Len_of_all_valid _ hall
    simp only [hlen, hall]
    by_cases hempty : name = ""
    · subst hempty; simp
    · have hne : name.data ≠ [] := by
        intro h
        exact hempty (String.ext h)
      have hlen1 : 1 ≤ name.data.length := by
        cases h : name.data with
        | nil => exact absurd h hne
        | cons c cs => simp [h]
      by_cases h100 : name.data.length > 100
      · have hgt : 100 < name.length := h100
        simp [hempty, hgt, Nat.not_le.mpr hgt]
      · have hngt : ¬ 100 < name.length := h100
        have hle : name.length ≤ 100 := Nat.le_of_not_lt hngt
        have h1 : 1 ≤ name.length := hlen1
        simp [hempty, hngt, hle, h1, Bool.and_assoc]
  · rw [Bool.not_eq_true] at hall
    simp only [hall, Bool.not_false, if_true, Bool.and_false, Bool.false_and, Bool.and_false]
    split <;> simp

/-- C1: refuted — the HTTP git-transport push endpoint never enqueues a
replication job.  `HTTPServer` holds no replication-queue reference and
`handleGitCommand` ends after streaming the engine's output, so no
execution of the HTTP handler ever emits an `enqueueJob` event (first
conjunct), even for a fully successful owner push (second conjunct),
whereas the shell-transport front end enqueues `(owner, name)` after the
same successful push (third conjunct). -/
theorem C1_http_push_never_enqueues_replication :
    (∀ (repos : Repos) (validate : String → Option String)
        (method urlPath service : String) (ba : Option (String × String))
        (engineOk : Bool) (o r : String),
      Event.enqueueJob o r ∉
        (HTTPServer.handleGitCommand repos validate method urlPath service ba engineOk).2) ∧
    HTTPServer.handleGitCommand [(("alice", "foo"), defaultMetadata)]
        (fun t => if t = "T" then some "alice" else none) "POST"
        "/alice/foo.git/git-receive-pack" "git-receive-pack" (some ("alice", "T")) true
      = (.ok, [.repoExistsCheck "alice" "foo", .getMetadata "alice" "foo",
               .repoPath "alice" "foo", .spawnEngine "git-receive-pack" "alice" "foo"]) ∧
    SSHServer.handleGitCommand [(("alice", "foo"), defaultMetadata)]
        "git-receive-pack 'alice/foo.git'" "alice" true
      = (.success, [.repoExistsCheck "alice" "foo", .getMetadata "alice" "foo",
                    .repoPath "alice" "foo", .spawnEngine "git-receive-pack" "alice" "foo",
                    .enqueueJob "alice" "foo"]) := by
  refine ⟨?_, by decide, by decide⟩
  intro repos validate method urlPath service ba engineOk o r
  unfold HTTPServer.handleGitCommand
  repeat' split
  all_goals simp only [apply_ite Prod.snd]
  all_goals repeat' split
  all_goals simp

/-- C2: refuted — `handleRegisterReplication` implements the opposite of
the claimed rule.  When the named repository is absent on the peer it
refuses with 404 and creates no replication user (first conjunct, where
the claim demands success and user creation); when the repository exists
as a live origin (`replica_of = nil`) it succeeds and installs the
replication credential (second conjunct, where the claim demands
refusal); when the repository is already a replica it refuses with 403
(third conjunct, where the claim demands success). -/
theorem C2_register_replication_checks_inverted :
    handleRegisterReplication [] [] "POST"
        (some { Owner := "alice", Repo := "myproject", ReplicaURL := "http://peer",
                Token := "tok", OriginInstanceID := "origin1" })
      = (.repoNotFound, []) ∧
    handleRegisterReplication [(("alice", "myproject"), defaultMetadata)] [] "POST"
        (some { Owner := "alice", Repo := "myproject", ReplicaURL := "http://peer",
                Token := "tok", OriginInstanceID := "origin1" })
      = (.ok, [{ Username := "replication-alice-myproject-origin1", SSHKeys := [],
                 APITokens := [{ Name := "replication", Token := "tok" }] }]) ∧
    handleRegisterReplication
        [(("alice", "myproject"),
          { defaultMetadata with
              ReplicaOf := some { InstanceID := "other", InvitationKey := "k" } })] [] "POST"
        (some { Owner := "alice", Repo := "myproject", ReplicaURL := "http://peer",
                Token := "tok", OriginInstanceID := "origin1" })
      = (.forbiddenReplica, []) := by
  refine ⟨by decide, by decide, by decide⟩

/-- C5: refuted — the git transports perform filesystem operations on
names they never validated.  The shell-transport command
`git-upload-pack '../x'` parses to owner `..` and reaches the
repo-existence check with it, and the HTTP route `/a!b/c/info/refs`
reaches the same check with owner `a!b`; both owners fail the §3
validator (which the git front ends never call — `isValidName` has no
call site in `internal/git/http.go`). -/
theorem C5_git_transports_skip_name_validation :
    SSHServer.handleGitCommand [] "git-upload-pack '../x'" "mallory" true
      = (.repoNotFound, [Event.repoExistsCheck ".." "x"]) ∧
    isValidName ".." = false ∧
    HTTPServer.handleInfoRefs [] (fun _ => none) "GET" "/a!b/c/info/refs"
        "git-upload-pack" none true
      = (.repoNotFound, [Event.repoExistsCheck "a!b" "c"]) ∧
    isValidName "a!b" = false := by
  refine ⟨by decide, by decide, by decide, by decide⟩

/-- The apply phase of `/replicate` can only end in apply-phase
outcomes, never in the two authorization rejections. -/
theorem replicateApply_outcomes (repos : Repos) (req : ReplicateRequest) (fetchOk : Bool) :
    (replicateApply repos req fetchOk).1 ≠ .notReplicationUser ∧
    (replicateApply repos req fetchOk).1 ≠ .tokenMismatch := by
  unfold replicateApply
  repeat' split
  all_goals refine ⟨fun h => ?_, fun h => ?_⟩
  all_goals try simp only [] at h
  all_goals try split at h
  all_goals simp_all

/-- C4 (counterexample): the claim's component-wise reading fails.  The
replication credential owned by `replication-a-b-c-x` — exactly the
username registered for owner `a`, repo `b-c`, origin instance `x` — is
accepted by `/api/repos/replicate` for a request whose body names owner
`a-b`, repo `c`, instance `x`: all three components differ from the
credential's, yet the request succeeds, because the handler compares only
the hyphen-joined strings, which collide. -/
theorem C4_counterexample_hyphen_collision :
    expectedReplicationUser "a" "b-c" "x" = expectedReplicationUser "a-b" "c" "x" ∧
    ("a", "b-c", "x") ≠ ("a-b", "c", "x") ∧
    (handleReplicate []
        (ValidateAPIToken
          [{ Username := expectedReplicationUser "a" "b-c" "x", SSHKeys := [],
             APITokens := [{ Name := "replication", Token := "tok1" }] }])
        "POST" "Bearer tok1"
        (some { Owner := "a-b", Repo := "c", InstanceID := "x", InvitationKey := "k",
                Bundle := "QQ==", Meta := defaultMetadata }) true true).1
      = .ok := by
  refine ⟨by decide, by decide, by decide⟩

/-- C4 (amended): for every well-formed authenticated POST to
`/api/repos/replicate`, the handler proceeds past its authorization
checks exactly when the token's owning username equals, as a plain
string, `replication-<owner>-<repo>-<instance_id>` built from the request
body (the `replication-` prefix requirement is subsumed by this
equality); when the strings differ, the request is rejected with 403
(`notReplicationUser` or `tokenMismatch`) and no state change.  Because
owner and repo may contain `-`, this string equality does not pin down
the three components: distinct triples whose hyphen-joined concatenations
coincide share one credential. -/
theorem C4_replicate_binding_is_string_equality :
    ∀ (repos : Repos) (validate : String → Option String) (authHeader tok username : String)
      (req : ReplicateRequest) (decodeOk fetchOk : Bool),
      goSplitN2 authHeader ' ' = ["Bearer", tok] →
      validate tok = some username →
      req.Owner ≠ "" → req.Repo ≠ "" → req.InstanceID ≠ "" → req.InvitationKey ≠ "" →
      isValidName req.Owner = true → isValidName req.Repo = true →
      req.Bundle ≠ "" →
      (username = expectedReplicationUser req.Owner req.Repo req.InstanceID →
        (handleReplicate repos validate "POST" authHeader (some req) decodeOk fetchOk).1
            ≠ .notReplicationUser ∧
        (handleReplicate repos validate "POST" authHeader (some req) decodeOk fetchOk).1
            ≠ .tokenMismatch) ∧
      (username ≠ expectedReplicationUser req.Owner req.Repo req.InstanceID →
        handleReplicate repos validate "POST" authHeader (some req) decodeOk fetchOk
          = (.notReplicationUser, repos, []) ∨
        handleReplicate repos validate "POST" authHeader (some req) decodeOk fetchOk
          = (.tokenMismatch, repos, [])) := by
  intro repos validate authHeader tok username req decodeOk fetchOk hsplit hval h1 h2 h3 h4 hv1 hv2 hb
  have hne : authHeader ≠ "" := by
    intro he
    subst he
    simp [goSplitN2, splitN2Aux] at hsplit
  constructor
  · intro hu
    subst hu
    unfold handleReplicate
    simp [hsplit, hval, hne, h1, h2, h3, h4, hv1, hv2, hb, goHasPre_expectedReplicationUser]
    by_cases hd : decodeOk = false
    · simp [hd]
    · simp only [hd, if_false]
      exact replicateApply_outcomes _ _ _
  · intro hu
    unfold handleReplicate
    by_cases hpre : goHasPre username "replication-" = true
    · right
      simp [hsplit, hval, hne, h1, h2, h3, h4, hv1, hv2, hb, hu, hpre]
    · left
      rw [Bool.not_eq_true] at hpre
      simp [hsplit, hval, hne, h1, h2, h3, h4, hv1, hv2, hb, hpre]

/-- Witness for `C4_replicate_binding_is_string_equality` at a concrete
input: the credential `replication-bob-proj-inst1` used against the
matching request body proceeds past the binding checks, and any username
differing from the template is turned away with no state change. -/
theorem C4_replicate_binding_witness :
    (goSplitN2 "Bearer t1" ' ' = ["Bearer", "t1"]) ∧
    (("replication-bob-proj-inst1" : String)
        = expectedReplicationUser "bob" "proj" "inst1" →
      (handleReplicate [] (fun t => if t = "t1" then some "replication-bob-proj-inst1" else none)
          "POST" "Bearer t1"
          (some { Owner := "bob", Repo := "proj", InstanceID := "inst1",
                  InvitationKey := "k", Bundle := "QQ==", Meta := defaultMetadata })
          true true).1 ≠ .notReplicationUser ∧
      (handleReplicate [] (fun t => if t = "t1" then some "replication-bob-proj-inst1" else none)
          "POST" "Bearer t1"
          (some { Owner := "bob", Repo := "proj", InstanceID := "inst1",
                  InvitationKey := "k", Bundle := "QQ==", Meta := defaultMetadata })
          true true).1 ≠ .tokenMismatch) ∧
    (("replication-bob-proj-inst1" : String)
        ≠ expectedReplicationUser "bob" "proj" "inst1" →
      handleReplicate [] (fun t => if t = "t1" then some "replication-bob-proj-inst1" else none)
          "POST" "Bearer t1"
          (some { Owner := "bob", Repo := "proj", InstanceID := "inst1",
                  InvitationKey := "k", Bundle := "QQ==", Meta := defaultMetadata })
          true true
        = (.notReplicationUser, [], []) ∨
      handleReplicate [] (fun t => if t = "t1" then some "replication-bob-proj-inst1" else none)
          "POST" "Bearer t1"
          (some { Owner := "bob", Repo := "proj", InstanceID := "inst1",
                  InvitationKey := "k", Bundle := "QQ==", Meta := defaultMetadata })
          true true
        = (.tokenMismatch, [], [])) :=
  ⟨by decide,
    (C4_replicate_binding_is_string_equality []
      (fun t => if t = "t1" then some "replication-bob-proj-inst1" else none)
      "Bearer t1" "t1" "replication-bob-proj-inst1"
      { Owner := "bob", Repo := "proj", InstanceID := "inst1",
        InvitationKey := "k", Bundle := "QQ==", Meta := defaultMetadata }
      true true (by decide) (by decide) (by decide) (by decide) (by decide) (by decide)
      (by decide) (by decide) (by decide)).1,
    (C4_replicate_binding_is_string_equality []
      (fun t => if t = "t1" then some "replication-bob-proj-inst1" else none)
      "Bearer t1" "t1" "replication-bob-proj-inst1"
      { Owner := "bob", Repo := "proj", InstanceID := "inst1",
        InvitationKey := "k", Bundle := "QQ==", Meta := defaultMetadata }
      true true (by decide) (by decide) (by decide) (by decide) (by decide) (by decide)
      (by decide) (by decide) (by decide)).2⟩

/-- A successful apply phase of `/replicate` persists exactly the request
metadata with `ReplicaOf` overwritten from the request. -/
theorem replicateApply_ok_persists (repos repos' : Repos) (req : ReplicateRequest)
    (fetchOk : Bool) (tr : List Event)
    (heq : replicateApply repos req fetchOk = (.ok, repos', tr)) :
    findRepo repos' req.Owner req.Repo
      = some { req.Meta with
                 ReplicaOf := some { InstanceID := req.InstanceID,
                                     InvitationKey := req.InvitationKey } } := by
  unfold replicateApply at heq
  repeat' split at heq
  all_goals try simp only [] at heq
  all_goals try split at heq
  all_goals simp only [Prod.mk.injEq] at heq
  all_goals obtain ⟨hA, hB, hC⟩ := heq
  all_goals first
    | (subst hB
       exact findRepo_SetMetadata _ _ _ _ _ (by assumption))
    | cases hA

/-- Every run of the `/replicate` handler either reaches the apply phase
with the store untouched so far, or stops at one of the validation
rejections, leaving the store unchanged, the trace empty and a non-`ok`
outcome. -/
theorem handleReplicate_cases (repos : Repos) (validate : String → Option String)
    (method authHeader : String) (req : ReplicateRequest) (decodeOk fetchOk : Bool) :
    handleReplicate repos validate method authHeader (some req) decodeOk fetchOk
        = replicateApply repos req fetchOk ∨
    ((handleReplicate repos validate method authHeader (some req) decodeOk fetchOk).1 ≠ .ok ∧
     (handleReplicate repos validate method authHeader (some req) decodeOk fetchOk).2.1 = repos ∧
     (handleReplicate repos validate method authHeader (some req) decodeOk fetchOk).2.2 = []) := by
  unfold handleReplicate
  by_cases h1 : method ≠ "POST"
  · exact Or.inr (by simp [h1])
  by_cases h2 : authHeader = ""
  · exact Or.inr (by simp [h1, h2])
  by_cases h3 : ((goSplitN2 authHeader ' ').length ≠ 2
      || (goSplitN2 authHeader ' ').headD "" ≠ "Bearer") = true
  all_goals try simp at h3
  · exact Or.inr (by simp [h1, h2, h3])
  cases hv : validate ((goSplitN2 authHeader ' ').getD 1 "") with
  | none =>
    simp [h3] at hv
    exact Or.inr (by simp [h1, h2, h3, hv])
  | some username =>
    simp [h3] at hv
    by_cases h4 : (req.Owner = "" || req.Repo = "" || req.InstanceID = ""
        || req.InvitationKey = "") = true
    all_goals try simp at h4
    · exact Or.inr (by simp [h1, h2, h3, hv, h4])
    by_cases h5 : (!isValidName req.Owner || !isValidName req.Repo) = true
    all_goals try simp at h5
    · exact Or.inr (by simp [h1, h2, h3, hv, h4, h5])
    by_cases h6 : req.Bundle = ""
    · exact Or.inr (by simp [h1, h2, h3, hv, h4, h5, h6])
    by_cases h7 : (!(goHasPre username "replication-")) = true
    all_goals try simp at h7
    · exact Or.inr (by simp [h1, h2, h3, hv, h4, h5, h6, h7])
    by_cases h8 : username ≠ expectedReplicationUser req.Owner req.Repo req.InstanceID
    · exact Or.inr (by simp [h1, h2, h3, hv, h4, h5, h6, h7, h8])
    by_cases h9 : (!decodeOk) = true
    all_goals try simp at h9
    · exact Or.inr (by simp [h1, h2, h3, hv, h4, h5, h6, h7, h8, h9])
    exact Or.inl (by simp [h1, h2, h3, hv, h4, h5, h6, h7, h8, h9])

/-- C7: for every `/replicate` request the peer accepts (the handler
returns the success outcome), the metadata persisted on the peer for
`(owner, repo)` has `replica_of = {instance_id, invitation_key}` taken
exactly from the request body (the rest of the persisted document is the
request's metadata payload). -/
theorem C7_accepted_replicate_persists_replica_of :
    ∀ (repos : Repos) (validate : String → Option String) (method authHeader : String)
      (req : ReplicateRequest) (decodeOk fetchOk : Bool) (repos' : Repos) (tr : List Event),
      handleReplicate repos validate method authHeader (some req) decodeOk fetchOk
        = (.ok, repos', tr) →
      findRepo repos' req.Owner req.Repo
        = some { req.Meta with
                   ReplicaOf := some { InstanceID := req.InstanceID,
                                       InvitationKey := req.InvitationKey } } := by
  intro repos validate method authHeader req decodeOk fetchOk repos' tr heq
  rcases handleReplicate_cases repos validate method authHeader req decodeOk fetchOk with
    hcase | ⟨hne, hrest⟩
  · rw [hcase] at heq
    exact replicateApply_ok_persists _ _ _ _ _ heq
  · exact absurd (by rw [heq]) hne

/-- Witness for `C7_accepted_replicate_persists_replica_of`: a concrete
accepted push to an existing replica of `alice/foo` ends with
`replica_of` exactly matching the request. -/
theorem C7_accepted_replicate_witness :
    handleReplicate
        [(("alice", "foo"),
          { defaultMetadata with
              ReplicaOf := some { InstanceID := "o1", InvitationKey := "k1" } })]
        (fun t => if t = "rt" then some (expectedReplicationUser "alice" "foo" "o1") else none)
        "POST" "Bearer rt"
        (some { Owner := "alice", Repo := "foo", InstanceID := "o1", InvitationKey := "k1",
                Bundle := "QQ==", Meta := defaultMetadata }) true true
      = (.ok,
         [(("alice", "foo"),
           { defaultMetadata with
               ReplicaOf := some { InstanceID := "o1", InvitationKey := "k1" } })],
         [Event.repoExistsCheck "alice" "foo", Event.applyBundle "alice" "foo",
          Event.setMetadata "alice" "foo"]) ∧
    findRepo
        [(("alice", "foo"),
          { defaultMetadata with
              ReplicaOf := some { InstanceID := "o1", InvitationKey := "k1" } })]
        "alice" "foo"
      = some { defaultMetadata with
                 ReplicaOf := some { InstanceID := "o1", InvitationKey := "k1" } } :=
  ⟨by decide,
   C7_accepted_replicate_persists_replica_of
     [(("alice", "foo"),
       { defaultMetadata with
           ReplicaOf := some { InstanceID := "o1", InvitationKey := "k1" } })]
     (fun t => if t = "rt" then some (expectedReplicationUser "alice" "foo" "o1") else none)
     "POST" "Bearer rt"
     { Owner := "alice", Repo := "foo", InstanceID := "o1", InvitationKey := "k1",
       Bundle := "QQ==", Meta := defaultMetadata } true true
     [(("alice", "foo"),
       { defaultMetadata with
           ReplicaOf := some { InstanceID := "o1", InvitationKey := "k1" } })]
     [Event.repoExistsCheck "alice" "foo", Event.applyBundle "alice" "foo",
      Event.setMetadata "alice" "foo"]
     (by decide)⟩

/-- C3: for every repository whose metadata has `replica_of` set, a push
attempt is rejected with the 403-equivalent error before the engine is
invoked and without touching the repository — on the HTTP transport the
handler returns the 403 `forbiddenReplica` with a trace holding only the
existence check and the metadata read (no engine spawn, no write, no
enqueue); on the shell transport the same with exit status 1; and every
`add-replica` invocation for it is refused with the store unchanged. -/
theorem C3_replica_rejects_push_and_add_replica :
    ∀ (repos : Repos) (owner repo : String) (meta : Metadata),
      findRepo repos owner repo = some meta →
      meta.ReplicaOf.isSome = true →
      (∀ (validate : String → Option String) (urlPath : String)
          (ba : Option (String × String)) (engineOk : Bool),
        HTTPServer.parseRepoPath urlPath = (owner, repo) → owner ≠ "" → repo ≠ "" →
        HTTPServer.handleGitCommand repos validate "POST" urlPath "git-receive-pack" ba engineOk
          = (.forbiddenReplica, [.repoExistsCheck owner repo, .getMetadata owner repo])) ∧
      (∀ (command username rawArg : String) (rest : List String) (engineOk : Bool),
        goFields command = "git-receive-pack" :: rawArg :: rest →
        parseRepoPath (goTrim rawArg "'\"") = (owner, repo) → owner ≠ "" → repo ≠ "" →
        SSHServer.handleGitCommand repos command username engineOk
          = (.forbiddenReplica, [.repoExistsCheck owner repo, .getMetadata owner repo]) ∧
        (SSHServer.handleGitCommand repos command username engineOk).1.exitStatus = 1) ∧
      (∀ (path url token invitationKey instID : String) (peerSuccess : Bool),
        goSplit path '/' = [owner, repo] →
        adminAddReplica repos path url token invitationKey instID peerSuccess
          = (.replicaRefused, repos)) := by
  intro repos owner repo meta hfind hrep
  refine ⟨?_, ?_, ?_⟩
  · intro validate urlPath ba engineOk hparse howner hrepo
    unfold HTTPServer.handleGitCommand
    simp [hparse, howner, hrepo, hfind, hrep]
  · intro command username rawArg rest engineOk hfields hparse howner hrepo
    have hlen : ¬ (rest.length + 1 + 1 < 2) := by omega
    unfold SSHServer.handleGitCommand
    refine ⟨?_, ?_⟩ <;>
      simp [hfields, hparse, howner, hrepo, hfind, hrep, hlen, SSHOutcome.exitStatus,
        show goHasPre "git-receive-pack" "git-" = true from by decide]
  · intro path url token invitationKey instID peerSuccess hsplit
    unfold adminAddReplica
    simp [hsplit, hfind, hrep]

/-- Witness for `C3_replica_rejects_push_and_add_replica`: the replica
`alice/foo` turns away a concrete HTTP push, SSH push, and `add-replica`
call. -/
theorem C3_replica_rejects_witness :
    HTTPServer.handleGitCommand
        [(("alice", "foo"),
          { defaultMetadata with
              ReplicaOf := some { InstanceID := "o1", InvitationKey := "k1" } })]
        (fun _ => none) "POST" "/alice/foo.git/git-receive-pack" "git-receive-pack"
        (some ("alice", "T")) true
      = (.forbiddenReplica,
         [.repoExistsCheck "alice" "foo", .getMetadata "alice" "foo"]) ∧
    SSHServer.handleGitCommand
        [(("alice", "foo"),
          { defaultMetadata with
              ReplicaOf := some { InstanceID := "o1", InvitationKey := "k1" } })]
        "git-receive-pack 'alice/foo.git'" "alice" true
      = (.forbiddenReplica,
         [.repoExistsCheck "alice" "foo", .getMetadata "alice" "foo"]) ∧
    adminAddReplica
        [(("alice", "foo"),
          { defaultMetadata with
              ReplicaOf := some { InstanceID := "o1", InvitationKey := "k1" } })]
        "alice/foo" "http://peer" "tok" "inv" "id1" true
      = (.replicaRefused,
         [(("alice", "foo"),
           { defaultMetadata with
               ReplicaOf := some { InstanceID := "o1", InvitationKey := "k1" } })]) := by
  have T := C3_replica_rejects_push_and_add_replica
    [(("alice", "foo"),
      { defaultMetadata with
          ReplicaOf := some { InstanceID := "o1", InvitationKey := "k1" } })]
    "alice" "foo"
    { defaultMetadata with
        ReplicaOf := some { InstanceID := "o1", InvitationKey := "k1" } }
    (by decide) (by decide)
  exact ⟨T.1 (fun _ => none) "/alice/foo.git/git-receive-pack" (some ("alice", "T")) true
            (by decide) (by decide) (by decide),
         (T.2.1 "git-receive-pack 'alice/foo.git'" "alice" "'alice/foo.git'" [] true
            (by decide) (by decide) (by decide) (by decide)).1,
         T.2.2 "alice/foo" "http://peer" "tok" "inv" "id1" true (by decide)⟩

/-- C6: a `/replicate` POST naming an existing repository is rejected
with 409 (`conflictOrigin`), store untouched, when the existing
`replica_of` is nil; rejected with 403 (`invalidInvitationKey`), store
untouched, when `replica_of` is set but its invitation key differs from
the request's; and the bundle is applied only when `replica_of` is set
with an equal invitation key. -/
theorem C6_replicate_existing_repo_guards :
    ∀ (repos : Repos) (validate : String → Option String) (authHeader tok username : String)
      (req : ReplicateRequest) (fetchOk : Bool) (meta : Metadata),
      goSplitN2 authHeader ' ' = ["Bearer", tok] →
      validate tok = some username →
      req.Owner ≠ "" → req.Repo ≠ "" → req.InstanceID ≠ "" → req.InvitationKey ≠ "" →
      isValidName req.Owner = true → isValidName req.Repo = true →
      req.Bundle ≠ "" →
      username = expectedReplicationUser req.Owner req.Repo req.InstanceID →
      findRepo repos req.Owner req.Repo = some meta →
      (meta.ReplicaOf = none →
        handleReplicate repos validate "POST" authHeader (some req) true fetchOk
          = (.conflictOrigin, repos, [.repoExistsCheck req.Owner req.Repo])) ∧
      (∀ src, meta.ReplicaOf = some src → src.InvitationKey ≠ req.InvitationKey →
        handleReplicate repos validate "POST" authHeader (some req) true fetchOk
          = (.invalidInvitationKey, repos, [.repoExistsCheck req.Owner req.Repo])) ∧
      (Event.applyBundle req.Owner req.Repo
          ∈ (handleReplicate repos validate "POST" authHeader (some req) true fetchOk).2.2 →
        ∃ src, meta.ReplicaOf = some src ∧ src.InvitationKey = req.InvitationKey) := by
  intro repos validate authHeader tok username req fetchOk meta
  intro hsplit hval h1 h2 h3 h4 hv1 hv2 hb hu hfind
  have hne : authHeader ≠ "" := by
    intro he
    subst he
    simp [goSplitN2, splitN2Aux] at hsplit
  subst hu
  refine ⟨?_, ?_, ?_⟩
  · intro hrep
    unfold handleReplicate replicateApply
    simp [hsplit, hval, hne, h1, h2, h3, h4, hv1, hv2, hb, hfind, hrep,
      goHasPre_expectedReplicationUser]
  · intro src hrep hkey
    unfold handleReplicate replicateApply
    simp [hsplit, hval, hne, h1, h2, h3, h4, hv1, hv2, hb, hfind, hrep, hkey,
      goHasPre_expectedReplicationUser]
  · unfold handleReplicate replicateApply
    simp [hsplit, hval, hne, h1, h2, h3, h4, hv1, hv2, hb, hfind,
      goHasPre_expectedReplicationUser]
    repeat' split
    all_goals intro hmem
    all_goals simp_all

/-- Witness for `C6_replicate_existing_repo_guards`: a concrete
`/replicate` against the live origin `alice/foo` yields the 409 conflict,
and one against the replica of `alice/foo` presenting the wrong
invitation key yields the 403 rejection; both leave the store unchanged. -/
theorem C6_replicate_existing_repo_witness :
    handleReplicate [(("alice", "foo"), defaultMetadata)]
        (fun t => if t = "rt" then some (expectedReplicationUser "alice" "foo" "o1") else none)
        "POST" "Bearer rt"
        (some { Owner := "alice", Repo := "foo", InstanceID := "o1", InvitationKey := "kX",
                Bundle := "QQ==", Meta := defaultMetadata }) true true
      = (.conflictOrigin, [(("alice", "foo"), defaultMetadata)],
         [.repoExistsCheck "alice" "foo"]) ∧
    handleReplicate
        [(("alice", "foo"),
          { defaultMetadata with
              ReplicaOf := some { InstanceID := "o1", InvitationKey := "k1" } })]
        (fun t => if t = "rt" then some (expectedReplicationUser "alice" "foo" "o1") else none)
        "POST" "Bearer rt"
        (some { Owner := "alice", Repo := "foo", InstanceID := "o1", InvitationKey := "k2",
                Bundle := "QQ==", Meta := defaultMetadata }) true true
      = (.invalidInvitationKey,
         [(("alice", "foo"),
           { defaultMetadata with
               ReplicaOf := some { InstanceID := "o1", InvitationKey := "k1" } })],
         [.repoExistsCheck "alice" "foo"]) :=
  ⟨(C6_replicate_existing_repo_guards [(("alice", "foo"), defaultMetadata)]
      (fun t => if t = "rt" then some (expectedReplicationUser "alice" "foo" "o1") else none)
      "Bearer rt" "rt" (expectedReplicationUser "alice" "foo" "o1")
      { Owner := "alice", Repo := "foo", InstanceID := "o1", InvitationKey := "kX",
        Bundle := "QQ==", Meta := defaultMetadata } true defaultMetadata
      (by decide) (by decide) (by decide) (by decide) (by decide) (by decide)
      (by decide) (by decide) (by decide) (by decide) (by decide)).1 (by decide),
   (C6_replicate_existing_repo_guards
      [(("alice", "foo"),
        { defaultMetadata with
            ReplicaOf := some { InstanceID := "o1", InvitationKey := "k1" } })]
      (fun t => if t = "rt" then some (expectedReplicationUser "alice" "foo" "o1") else none)
      "Bearer rt" "rt" (expectedReplicationUser "alice" "foo" "o1")
      { Owner := "alice", Repo := "foo", InstanceID := "o1", InvitationKey := "k2",
        Bundle := "QQ==", Meta := defaultMetadata } true
      { defaultMetadata with
          ReplicaOf := some { InstanceID := "o1", InvitationKey := "k1" } }
      (by decide) (by decide) (by decide) (by decide) (by decide) (by decide)
      (by decide) (by decide) (by decide) (by decide) (by decide)).2.1
     { InstanceID := "o1", InvitationKey := "k1" } (by decide) (by decide)⟩

/-- Basic credentials that fail validation — empty username, empty
password, a password that is not a valid token, or a token owned by a
different username — all collapse to the anonymous user, exactly as a
request with no credentials. -/
theorem getAuthenticatedUser_wrong (validate : String → Option String) (u p : String)
    (hw : u = "" ∨ p = "" ∨ validate p = none ∨ ∃ v, validate p = some v ∧ v ≠ u) :
    getAuthenticatedUser validate (some (u, p)) = "" := by
  by_cases h0 : (u = "" || p = "") = true
  · simp [getAuthenticatedUser, h0]
  · rcases hw with rfl | rfl | hnone | ⟨v, hv, hvne⟩
    · simp at h0
    · simp at h0
    · simp [getAuthenticatedUser, h0, hnone]
    · simp [getAuthenticatedUser, h0, hv, hvne]

/-- C9: on the HTTP git transport, a request carrying Basic credentials
whose password is not a valid API token, or whose token validates to a
different username, or whose username or password is empty, is handled
identically to the same request with no credentials at all — for both
the info/refs route and the POST transport route — and in particular an
anonymous-equivalent read of a public repository with such wrong
credentials still succeeds. -/
theorem C9_wrong_credentials_equal_anonymous :
    ∀ (repos : Repos) (validate : String → Option String)
      (method urlPath service u p : String) (engineOk : Bool),
      (u = "" ∨ p = "" ∨ validate p = none ∨ ∃ v, validate p = some v ∧ v ≠ u) →
      (HTTPServer.handleInfoRefs repos validate method urlPath service (some (u, p)) engineOk
         = HTTPServer.handleInfoRefs repos validate method urlPath service none engineOk) ∧
      (HTTPServer.handleGitCommand repos validate method urlPath service (some (u, p)) engineOk
         = HTTPServer.handleGitCommand repos validate method urlPath service none engineOk) ∧
      (∀ owner repo meta,
         HTTPServer.parseRepoPath urlPath = (owner, repo) → owner ≠ "" → repo ≠ "" →
         findRepo repos owner repo = some meta → meta.Private = false →
         (HTTPServer.handleInfoRefs repos validate "GET" urlPath "git-upload-pack"
            (some (u, p)) true).1 = .ok) := by
  intro repos validate method urlPath service u p engineOk hw
  have hauth : getAuthenticatedUser validate (some (u, p)) = "" :=
    getAuthenticatedUser_wrong validate u p hw
  have hanon : getAuthenticatedUser validate none = "" := rfl
  refine ⟨?_, ?_, ?_⟩
  · unfold HTTPServer.handleInfoRefs
    rw [hauth, hanon]
  · unfold HTTPServer.handleGitCommand
    rw [hauth, hanon]
  · intro owner repo meta hparse howner hrepo hfind hpriv
    unfold HTTPServer.handleInfoRefs
    simp [hparse, howner, hrepo, hfind, hpriv, hauth]

/-- Witness for `C9_wrong_credentials_equal_anonymous`: a read of the
public `alice/foo` with Basic credentials `alice:wrongtoken` (an invalid
token) behaves exactly like the anonymous request and succeeds. -/
theorem C9_wrong_credentials_witness :
    (HTTPServer.handleInfoRefs [(("alice", "foo"), defaultMetadata)] (fun _ => none)
        "GET" "/alice/foo.git/info/refs" "git-upload-pack" (some ("alice", "wrongtoken")) true
      = HTTPServer.handleInfoRefs [(("alice", "foo"), defaultMetadata)] (fun _ => none)
        "GET" "/alice/foo.git/info/refs" "git-upload-pack" none true) ∧
    (HTTPServer.handleInfoRefs [(("alice", "foo"), defaultMetadata)] (fun _ => none)
        "GET" "/alice/foo.git/info/refs" "git-upload-pack" (some ("alice", "wrongtoken")) true).1
      = .ok :=
  ⟨(C9_wrong_credentials_equal_anonymous [(("alice", "foo"), defaultMetadata)] (fun _ => none)
      "GET" "/alice/foo.git/info/refs" "git-upload-pack" "alice" "wrongtoken" true
      (Or.inr (Or.inr (Or.inl rfl)))).1,
   (C9_wrong_credentials_equal_anonymous [(("alice", "foo"), defaultMetadata)] (fun _ => none)
      "GET" "/alice/foo.git/info/refs" "git-upload-pack" "alice" "wrongtoken" true
      (Or.inr (Or.inr (Or.inl rfl)))).2.2 "alice" "foo" defaultMetadata
      (by decide) (by decide) (by decide) (by decide) (by decide)⟩

/-- C10: a repeated `register-replication` POST whose replication user
already exists returns success and leaves the user store — including the
existing user's stored API token — completely unchanged; the token in the
repeated request is discarded, never stored. -/
theorem C10_repeated_register_keeps_user :
    ∀ (repos : Repos) (users : Users) (req : RegisterReplicationRequest)
      (meta : Metadata) (u0 : User),
      req.Owner ≠ "" → req.Repo ≠ "" → req.Token ≠ "" → req.OriginInstanceID ≠ "" →
      req.ReplicaURL ≠ "" →
      isValidName req.Owner = true → isValidName req.Repo = true →
      findRepo repos req.Owner req.Repo = some meta →
      meta.ReplicaOf = none →
      GetUser users (expectedReplicationUser req.Owner req.Repo req.OriginInstanceID)
        = some u0 →
      handleRegisterReplication repos users "POST" (some req) = (.ok, users) := by
  intro repos users req meta u0 h1 h2 h3 h4 h5 hv1 hv2 hfind hrep huser
  unfold handleRegisterReplication CreateUserWithToken
  simp [h1, h2, h3, h4, h5, hv1, hv2, hfind, hrep, huser]

/-- Witness for `C10_repeated_register_keeps_user`: re-registering
`alice/foo` for origin `o1` with a fresh token `new` succeeds but the
stored user keeps its original token `old`. -/
theorem C10_repeated_register_witness :
    handleRegisterReplication [(("alice", "foo"), defaultMetadata)]
        [{ Username := expectedReplicationUser "alice" "foo" "o1", SSHKeys := [],
           APITokens := [{ Name := "replication", Token := "old" }] }]
        "POST"
        (some { Owner := "alice", Repo := "foo", ReplicaURL := "http://peer",
                Token := "new", OriginInstanceID := "o1" })
      = (.ok,
         [{ Username := expectedReplicationUser "alice" "foo" "o1", SSHKeys := [],
            APITokens := [{ Name := "replication", Token := "old" }] }]) :=
  C10_repeated_register_keeps_user [(("alice", "foo"), defaultMetadata)]
    [{ Username := expectedReplicationUser "alice" "foo" "o1", SSHKeys := [],
       APITokens := [{ Name := "replication", Token := "old" }] }]
    { Owner := "alice", Repo := "foo", ReplicaURL := "http://peer",
      Token := "new", OriginInstanceID := "o1" }
    defaultMetadata
    { Username := expectedReplicationUser "alice" "foo" "o1", SSHKeys := [],
      APITokens := [{ Name := "replication", Token := "old" }] }
    (by decide) (by decide) (by decide) (by decide) (by decide) (by decide) (by decide)
    (by decide) (by decide) (by decide)
